import Mathlib

/-
Verification of the evm-simulation MEV discovery engine against its
natural-language specification.  The Rust sources under src/ are shallowly
embedded: `H160`/`H256`/`U256` values become `Nat`, `HashMap`s become
association lists observed through `lookupA`, keccak256 of an
abi-encoding of an address and a slot index becomes an abstract function
parameter `hash : Nat → Nat → Nat`, and EVM execution of a swap through
the deployed simulator contract becomes an oracle
`SwapOracle : CacheDB → SwapArgs → Option (CacheDB × Nat × Nat)` (an
`Option` result: `none` models a revert/halt surfaced as `Err`).
Rust `unwrap` panics are modelled by `Option`-valued functions returning
`none` on the panicking path.
-/

set_option maxRecDepth 8000

namespace EvmSimulation

/-- Association-list lookup, modelling `HashMap::get`: the most recent
insertion for a key is the one observed.  Keys are `Nat` encodings of
`H160` / `H256` values. -/
def lookupA {β : Type} : List (Nat × β) → Nat → Option β
  | [], _ => none
  | (k, v) :: rest, a => if k = a then some v else lookupA rest a

/-- Association-list insert, modelling `HashMap::insert`: the new binding
shadows any earlier binding for the same key under `lookupA`. -/
def insertA {β : Type} (m : List (Nat × β)) (k : Nat) (v : β) : List (Nat × β) :=
  (k, v) :: m

/-- Account info held by the revm `CacheDB`: balance, nonce and code
(`simulator.rs`, `AccountInfo::new`). -/
structure AccountInfo where
  balance : Nat
  nonce : Nat
  code : List Nat
deriving DecidableEq

/-- The writable cache layered over the fork backend
(`CacheDB<SharedBackend>` in `simulator.rs`): per-address account info and
per-address storage cells. -/
structure CacheDB where
  accounts : List (Nat × AccountInfo)
  storage : List (Nat × List (Nat × Nat))
deriving DecidableEq

/-- revm `CacheDB::insert_account_info`. -/
def CacheDB.insert_account_info (db : CacheDB) (addr : Nat) (info : AccountInfo) : CacheDB :=
  { db with accounts := insertA db.accounts addr info }

/-- revm `CacheDB::insert_account_storage`: update one storage cell of one
account. -/
def CacheDB.insert_account_storage (db : CacheDB) (addr slot value : Nat) : CacheDB :=
  { db with
    storage := insertA db.storage addr (insertA ((lookupA db.storage addr).getD []) slot value) }

/-- Database read of account info (revm `Database::basic`). -/
def CacheDB.basic (db : CacheDB) (addr : Nat) : Option AccountInfo :=
  lookupA db.accounts addr

/-- Database read of one storage cell. -/
def CacheDB.storage_at (db : CacheDB) (addr slot : Nat) : Option Nat :=
  (lookupA db.storage addr).bind fun m => lookupA m slot

/-- Token metadata record (`tokens.rs`, `struct Token`). -/
structure Token where
  address : Nat
  implementation : Option Nat
  name : String
  symbol : String
  decimals : Nat
deriving DecidableEq

/-- Constant-product pool record (`pools.rs` is not part of the source
excerpt; the fields are the ones the excerpt reads: `address`, `token0`,
`token1`). -/
structure Pool where
  address : Nat
  token0 : Nat
  token1 : Nat
deriving DecidableEq

/-- The configuration environment set up in `EvmSimulator::new`
(`simulator.rs` lines 71-73). -/
structure CfgEnv where
  limit_contract_code_size : Option Nat
  disable_block_gas_limit : Bool
  disable_base_fee : Bool
deriving DecidableEq

/-- Block environment (`simulator.rs` line 75). -/
structure BlockEnv where
  number : Nat
deriving DecidableEq

/-- Transaction environment fields set by `EvmSimulator::_call`. -/
structure TxEnv where
  caller : Nat
  transact_to : Nat
  data : List Nat
  value : Nat
  gas_limit : Nat
deriving DecidableEq

/-- The parts of `evm.env` the excerpt configures. -/
structure EvmEnv where
  cfg : CfgEnv
  block : BlockEnv
  tx : TxEnv
deriving DecidableEq

/-- The internal simulator contract address hard-coded in
`EvmSimulator::new` (`simulator.rs` line 87). -/
def simulator_address : Nat := 0x4E17607Fb72C01C280d7b5c41Ba9A2109D74a32C

/-- The EVM harness state (`struct EvmSimulator` in `simulator.rs`):
owner, environment, writable cache, pinned block number. -/
structure EvmSimulatorS where
  owner : Nat
  env : EvmEnv
  db : CacheDB
  block_number : Nat
deriving DecidableEq

/-- `EvmSimulator::new` (`simulator.rs` lines 53-90): fresh writable cache,
code-size ceiling `0x100000`, block gas limit and base fee checks disabled,
and block-env number set to `block_number + 1`. -/
def EvmSimulator_new (owner block_number : Nat) : EvmSimulatorS :=
  { owner := owner
    env :=
      { cfg :=
          { limit_contract_code_size := some 0x100000
            disable_block_gas_limit := true
            disable_base_fee := true }
        block := { number := block_number + 1 }
        tx := { caller := 0, transact_to := 0, data := [], value := 0, gas_limit := 0 } }
    db := { accounts := [], storage := [] }
    block_number := block_number }

/-- A synthetic transaction passed to `EvmSimulator::_call`
(`struct Tx` in `simulator.rs`). -/
structure Tx where
  caller : Nat
  transact_to : Nat
  data : List Nat
  value : Nat
  gas_limit : Nat
deriving DecidableEq

/-- The environment update performed by `EvmSimulator::_call`
(`simulator.rs` lines 151-156) before executing, for both the committing
(`commit = true`) and the static (`commit = false`) path: the gas limit is
hard-coded to 5,000,000 regardless of `tx.gas_limit`. -/
def EvmSimulator_call_env (s : EvmSimulatorS) (tx : Tx) (_commit : Bool) : EvmSimulatorS :=
  { s with
    env :=
      { s.env with
        tx :=
          { caller := tx.caller
            transact_to := tx.transact_to
            data := tx.data
            value := tx.value
            gas_limit := 5000000 } } }

/-- `SandwichSimulator::db_snapshot` (`sandwich.rs` lines 32-34): clone of
the writable cache. -/
def db_snapshot (s : EvmSimulatorS) : CacheDB :=
  s.db

/-- `EvmSimulator::inject_db` (`simulator.rs` lines 92-94): replace the
harness's writable cache with the argument. -/
def inject_db (s : EvmSimulatorS) (db : CacheDB) : EvmSimulatorS :=
  { s with db := db }

/-- `EvmSimulator::set_eth_balance` (`simulator.rs` lines 224-234):
overwrite the owner's account info with `balance * 10^18` wei. -/
def set_eth_balance (s : EvmSimulatorS) (balance : Nat) : EvmSimulatorS :=
  { s with db := s.db.insert_account_info s.owner ⟨balance * 10 ^ 18, 0, []⟩ }

/-- The storage write performed by `EvmSimulator::set_token_balance`
(`simulator.rs` lines 237-258): cell `keccak256(abi_encode(account, slot))`
of the token's storage is set to `balance * 10^decimals`.  `hash` stands
for `keccak256 ∘ abi_encode` on an address and a slot index. -/
def set_token_balance_db (hash : Nat → Nat → Nat) (db : CacheDB)
    (account token decimals slot balance : Nat) : CacheDB :=
  db.insert_account_storage token (hash account slot) (balance * 10 ^ decimals)

/-- `EvmSimulator::set_token_balance` lifted to the harness. -/
def set_token_balance (hash : Nat → Nat → Nat) (s : EvmSimulatorS)
    (account token decimals slot balance : Nat) : EvmSimulatorS :=
  { s with db := set_token_balance_db hash s.db account token decimals slot balance }

/-- `EvmSimulator::deploy_simulator` (`simulator.rs` lines 298-309):
install the simulator bytecode at the hard-coded address.  The bytecode
blob `SIMULATOR_CODE` lives in `constants.rs`, which is not part of the
source excerpt, so the code is a parameter. -/
def deploy_simulator (s : EvmSimulatorS) (code : List Nat) : EvmSimulatorS :=
  { s with db := s.db.insert_account_info simulator_address ⟨0, 0, code⟩ }

/-- `EvmSimulator::set_v2_pool_reserves` (`simulator.rs` lines 274-282):
write the packed reserves word at slot 8. -/
def set_v2_pool_reserves (s : EvmSimulatorS) (pool reserves : Nat) : EvmSimulatorS :=
  { s with db := s.db.insert_account_storage pool 8 reserves }

/-- A mutation applicable to a harness after a snapshot: the direct cache
writes of `simulator.rs` plus an abstract committed transaction
(`transact_commit`) represented by the storage writes it performs. -/
inductive Mutation where
  | setEthBalance (balance : Nat)
  | setTokenBalance (hash : Nat → Nat → Nat) (account token decimals slot balance : Nat)
  | deploySimulator (code : List Nat)
  | setV2PoolReserves (pool reserves : Nat)
  | commitWrites (writes : List (Nat × Nat × Nat))

/-- Apply one mutation to a harness. -/
def apply_mutation (s : EvmSimulatorS) : Mutation → EvmSimulatorS
  | .setEthBalance balance => set_eth_balance s balance
  | .setTokenBalance hash account token decimals slot balance =>
      set_token_balance hash s account token decimals slot balance
  | .deploySimulator code => deploy_simulator s code
  | .setV2PoolReserves pool reserves => set_v2_pool_reserves s pool reserves
  | .commitWrites writes =>
      { s with
        db := writes.foldl (fun db w => db.insert_account_storage w.1 w.2.1 w.2.2) s.db }

/-- C7: every harness constructed at pinned block `N` executes with
block-env number `N + 1`, with `disable_base_fee` and
`disable_block_gas_limit` set and the contract-code-size ceiling elevated
to `0x100000` (above the EIP-170 default of `0x6000`), and every internal
call — committing or static — runs with a gas limit of 5,000,000. -/
theorem harness_env_and_gas_limit :
    ∀ (owner N : Nat) (s : EvmSimulatorS) (tx : Tx) (commit : Bool),
      (EvmSimulator_new owner N).env.block.number = N + 1 ∧
      (EvmSimulator_new owner N).env.cfg.disable_base_fee = true ∧
      (EvmSimulator_new owner N).env.cfg.disable_block_gas_limit = true ∧
      (EvmSimulator_new owner N).env.cfg.limit_contract_code_size = some 0x100000 ∧
      0x6000 < 0x100000 ∧
      (EvmSimulator_call_env s tx commit).env.tx.gas_limit = 5000000 := by
  intro owner N s tx commit
  refine ⟨rfl, rfl, rfl, rfl, by norm_num, rfl⟩

/-- C8: `db_snapshot` copies the writable cache by value: however the
harness is mutated afterwards, injecting the snapshot into any harness
yields a harness whose cache — and hence every account-info and storage
read — is exactly the pre-snapshot state, the later mutations being
discarded. -/
theorem snapshot_isolation :
    ∀ (s h2 : EvmSimulatorS) (ops : List Mutation),
      (inject_db (ops.foldl apply_mutation s) (db_snapshot s)).db = s.db ∧
      (inject_db h2 (db_snapshot s)).db = s.db ∧
      (∀ addr, ((inject_db (ops.foldl apply_mutation s) (db_snapshot s)).db.basic addr) =
        s.db.basic addr) ∧
      (∀ addr slot,
        ((inject_db (ops.foldl apply_mutation s) (db_snapshot s)).db.storage_at addr slot) =
          s.db.storage_at addr slot) := by
  intro s h2 ops
  exact ⟨rfl, rfl, fun _ => rfl, fun _ _ => rfl⟩

/-- The four safe-token anchor addresses (`honeypot.rs`, `SafeTokens`). -/
structure SafeTokens where
  weth : Nat
  usdt : Nat
  usdc : Nat
  dai : Nat
deriving DecidableEq

/-- `SafeTokens::new` (`honeypot.rs` lines 20-27), the mainnet addresses
read as 160-bit numbers. -/
def SafeTokens.new : SafeTokens :=
  { usdt := 0xdAC17F958D2ee523a2206206994597C13D831ec7
    weth := 0xC02aaA39b223FE8D0A0e5C4F27eAD9083C756Cc2
    usdc := 0xA0b86991c6218b36c1d19D4a2e9Eb0cE3606eB48
    dai := 0x6B175474E89094C44Da98b954EedeAC495271d0F }

/-- The swap-notional selection of `HoneypotFilter::filter_tokens`
(`honeypot.rs` lines 167-177): 20 if the safe leg is WETH, 10000 for
USDT / USDC / DAI, 1 otherwise. -/
def honeypot_amount_in_u32 (safe_tokens : SafeTokens) (safe_token : Nat) : Nat :=
  if safe_token = safe_tokens.weth then 20
  else if safe_token = safe_tokens.usdt then 10000
  else if safe_token = safe_tokens.usdc then 10000
  else if safe_token = safe_tokens.dai then 10000
  else 1

/-- The atomic-unit swap notional of the honeypot probe
(`honeypot.rs` lines 196-198): `amount_in_u32 * 10^decimals`.  The same
value is seeded as the simulator's token balance, since
`set_token_balance` multiplies the same `amount_in_u32` by the same
`10^decimals`. -/
def honeypot_probe_amount (safe_tokens : SafeTokens) (safe_token decimals : Nat) : Nat :=
  honeypot_amount_in_u32 safe_tokens safe_token * 10 ^ decimals

/-- C4 counterexample: for a WETH safe leg the probe notional is
20 WETH (20·10^18 wei), not the 0.1 WETH (10^17 wei) the claim states. -/
theorem honeypot_weth_notional_not_tenth :
    honeypot_probe_amount SafeTokens.new SafeTokens.new.weth 18 = 20 * 10 ^ 18 ∧
    honeypot_probe_amount SafeTokens.new SafeTokens.new.weth 18 ≠ 10 ^ 17 := by
  constructor
  · rfl
  · decide

/-- C4 (amended): the probe notional — both the balance seeded into the
simulator and the buy input — is 20 WETH when the safe leg is WETH, and
10,000 whole units scaled by the token's decimals when the safe leg is
USDT, USDC or DAI. -/
theorem honeypot_probe_amounts :
    ∀ d : Nat,
      honeypot_probe_amount SafeTokens.new SafeTokens.new.weth d = 20 * 10 ^ d ∧
      honeypot_probe_amount SafeTokens.new SafeTokens.new.usdt d = 10000 * 10 ^ d ∧
      honeypot_probe_amount SafeTokens.new SafeTokens.new.usdc d = 10000 * 10 ^ d ∧
      honeypot_probe_amount SafeTokens.new SafeTokens.new.dai d = 10000 * 10 ^ d ∧
      (∀ hash : Nat → Nat → Nat, ∀ db : CacheDB, ∀ safe_token slot : Nat,
        (set_token_balance_db hash db simulator_address safe_token d slot
            (honeypot_amount_in_u32 SafeTokens.new safe_token)).storage_at
            safe_token (hash simulator_address slot) =
          some (honeypot_probe_amount SafeTokens.new safe_token d)) := by
  intro d
  refine ⟨rfl, ?_, ?_, ?_, ?_⟩
  · show honeypot_amount_in_u32 SafeTokens.new SafeTokens.new.usdt * 10 ^ d = 10000 * 10 ^ d
    norm_num [honeypot_amount_in_u32, SafeTokens.new]
  · show honeypot_amount_in_u32 SafeTokens.new SafeTokens.new.usdc * 10 ^ d = 10000 * 10 ^ d
    norm_num [honeypot_amount_in_u32, SafeTokens.new]
  · show honeypot_amount_in_u32 SafeTokens.new SafeTokens.new.dai * 10 ^ d = 10000 * 10 ^ d
    norm_num [honeypot_amount_in_u32, SafeTokens.new]
  · intro hash db safe_token slot
    simp [set_token_balance_db, CacheDB.insert_account_storage, CacheDB.storage_at,
      insertA, lookupA, honeypot_probe_amount]

/-- An account entry of a prestate trace: the excerpt only reads its
`storage` field (`Option` because geth omits it when no storage was
touched). -/
structure AccountState where
  storage : Option (List (Nat × Nat))
deriving DecidableEq

/-- Inner loop of `EvmTracer::find_balance_slot` (`trace.rs` lines 89-101):
starting at slot index `i` with `fuel` indices left of the twenty, return
`(true, i)` at the first index whose key `keccak256(abi_encode(owner, i))`
is among the touched storage keys, and `(false, 0)` when the loop ends. -/
def find_slot_loop (hash : Nat → Nat → Nat) (owner : Nat)
    (touched : List (Nat × Nat)) : Nat → Nat → Bool × Nat
  | _, 0 => (false, 0)
  | i, fuel + 1 =>
      if (lookupA touched (hash owner i)).isSome then (true, i)
      else find_slot_loop hash owner touched (i + 1) fuel

/-- `EvmTracer::find_balance_slot` (`trace.rs` lines 51-109) after the
trace response arrives: resolve the token's entry in the default-mode
prestate, fail (`Err`) when the token or its storage is absent, and
otherwise scan slot indices 0..20. -/
def find_balance_slot (hash : Nat → Nat → Nat) (owner : Nat)
    (prestate : List (Nat × AccountState)) (token : Nat) : Option (Bool × Nat) :=
  match lookupA prestate token with
  | none => none
  | some token_info =>
      match token_info.storage with
      | none => none
      | some touched_storage => some (find_slot_loop hash owner touched_storage 0 20)

theorem find_slot_loop_none (hash : Nat → Nat → Nat) (owner : Nat)
    (touched : List (Nat × Nat)) :
    ∀ fuel i, (∀ j, i ≤ j → j < i + fuel → lookupA touched (hash owner j) = none) →
      find_slot_loop hash owner touched i fuel = (false, 0) := by
  intro fuel
  induction fuel with
  | zero => intro i _; rfl
  | succ n ih =>
      intro i h
      have hi : lookupA touched (hash owner i) = none := h i (Nat.le_refl i) (by omega)
      simp only [find_slot_loop, hi, Option.isSome_none, Bool.false_eq_true, if_false]
      exact ih (i + 1) fun j hj1 hj2 => h j (by omega) (by omega)

theorem find_slot_loop_hit (hash : Nat → Nat → Nat) (owner : Nat)
    (touched : List (Nat × Nat)) :
    ∀ fuel i k, i ≤ k → k < i + fuel →
      (lookupA touched (hash owner k)).isSome →
      (∀ j, i ≤ j → j < k → lookupA touched (hash owner j) = none) →
      find_slot_loop hash owner touched i fuel = (true, k) := by
  intro fuel
  induction fuel with
  | zero => intro i k h1 h2; omega
  | succ n ih =>
      intro i k h1 h2 hk hmin
      by_cases hik : i = k
      · subst hik
        simp only [find_slot_loop, hk, if_true]
      · have hi : lookupA touched (hash owner i) = none := hmin i (Nat.le_refl i) (by omega)
        simp only [find_slot_loop, hi, Option.isSome_none, Bool.false_eq_true, if_false]
        exact ih (i + 1) k (by omega) (by omega) hk fun j hj1 hj2 => hmin j (by omega) hj2

/-- C5: whenever the prestate trace of `balanceOf(owner)` reports touched
storage at the token address, `find_balance_slot` returns `(true, i)` for
the smallest `i < 20` whose key `keccak256(abi_encode(owner, i))` is among
the touched keys, and `(false, 0)` when no index below 20 matches. -/
theorem find_balance_slot_characterisation
    (hash : Nat → Nat → Nat) (owner token : Nat)
    (prestate : List (Nat × AccountState)) (token_info : AccountState)
    (touched : List (Nat × Nat))
    (hacct : lookupA prestate token = some token_info)
    (hstor : token_info.storage = some touched) :
    (∀ k, k < 20 → (lookupA touched (hash owner k)).isSome →
      (∀ j, j < k → lookupA touched (hash owner j) = none) →
      find_balance_slot hash owner prestate token = some (true, k)) ∧
    ((∀ j, j < 20 → lookupA touched (hash owner j) = none) →
      find_balance_slot hash owner prestate token = some (false, 0)) := by
  constructor
  · intro k hk hhit hmin
    simp only [find_balance_slot, hacct, hstor]
    exact congrArg some
      (find_slot_loop_hit hash owner touched 20 0 k (Nat.zero_le k) (by omega) hhit
        fun j _ hj => hmin j hj)
  · intro hnone
    simp only [find_balance_slot, hacct, hstor]
    exact congrArg some
      (find_slot_loop_none hash owner touched 20 0 fun j _ hj => hnone j (by omega))

/-- Witness data for C5: a hash sending `(owner, i)` to `1000·owner + i`,
with slot index 3 touched. -/
def witness_touched_storage : List (Nat × Nat) :=
  [(7003, 55), (9999, 1)]

/-- Witness prestate for C5. -/
def witness_prestate : List (Nat × AccountState) :=
  [(42, ⟨some witness_touched_storage⟩)]

/-- C5 witness: on the concrete prestate, the hit at index 3 is found. -/
theorem find_balance_slot_witness :
    find_balance_slot (fun o i => 1000 * o + i) 7 witness_prestate 42 = some (true, 3) :=
  (find_balance_slot_characterisation (fun o i => 1000 * o + i) 7 42 witness_prestate
      ⟨some witness_touched_storage⟩ witness_touched_storage (by decide) rfl).1
    3 (by decide) (by decide) (by decide)

/-- The current-head block context kept by the event handler.  Modelled
from the spec: `streams.rs` is not in the source excerpt; the spec gives
`NewBlock{number, base_fee, next_base_fee}`. -/
structure NewBlockT where
  block_number : Nat
  base_fee : Nat
  next_base_fee : Nat
deriving DecidableEq

/-- The field of a pending mempool transaction the base-fee gate reads
(`strategy.rs` lines 207-208): `max_fee_per_gas`, absent for legacy
transactions. -/
structure PendingTx where
  max_fee_per_gas : Option Nat
deriving DecidableEq

/-- `base_fee_condition` of the event handler (`strategy.rs` lines
207-208): `tx.max_fee_per_gas.unwrap_or_default() < new_block.base_fee`. -/
def base_fee_condition (new_block : NewBlockT) (tx : PendingTx) : Bool :=
  decide (tx.max_fee_per_gas.getD 0 < new_block.base_fee)

/-- Outcome of handling one `Event::PendingTx` in the event-handler loop:
whether a `debug_traceCall` was issued, and the `(pool, safe token)`
sandwich candidates simulated. -/
structure PendingTxOutcome where
  traced : Bool
  sandwich_candidates : List (Nat × Nat)
deriving DecidableEq

/-- The `Event::PendingTx` arm of the event-handler loop (`strategy.rs`
lines 206-285): when the base-fee condition holds the transaction is
skipped with no trace; otherwise `get_touched_pools` is invoked — its
outcome is the `trace_result` oracle, `none` for `Err` — and every touched
pool mapped to `Some(safe_token)` becomes a sandwich candidate. -/
def handle_pending_tx (new_block : NewBlockT) (tx : PendingTx)
    (trace_result : Option (List (Nat × Option Nat))) : PendingTxOutcome :=
  if base_fee_condition new_block tx then ⟨false, []⟩
  else
    match trace_result with
    | none => ⟨true, []⟩
    | some touched_pools =>
        ⟨true, touched_pools.filterMap fun pv => pv.2.map fun s => (pv.1, s)⟩

/-- C3: a pending transaction whose `max_fee_per_gas` is strictly below
the current block's base fee is skipped before tracing: no
`debug_traceCall` is issued and no sandwich candidates are produced. -/
theorem base_fee_gate (new_block : NewBlockT) (tx : PendingTx)
    (trace_result : Option (List (Nat × Option Nat))) (f : Nat)
    (hfee : tx.max_fee_per_gas = some f) (hlt : f < new_block.base_fee) :
    handle_pending_tx new_block tx trace_result = ⟨false, []⟩ := by
  have hcond : base_fee_condition new_block tx = true := by
    simp [base_fee_condition, hfee, hlt]
  simp [handle_pending_tx, hcond]

/-- C3 witness: a concrete transaction with `max_fee_per_gas` one below
the base fee is skipped even when the trace oracle would report a
sandwichable pool. -/
theorem base_fee_gate_witness :
    handle_pending_tx ⟨100, 50, 55⟩ ⟨some 49⟩ (some [(5, some 9)]) = ⟨false, []⟩ :=
  base_fee_gate ⟨100, 50, 55⟩ ⟨some 49⟩ (some [(5, some 9)]) 49 rfl (by decide)

/-- Arguments of a `v2SimulateSwap` call through the deployed simulator
contract (`interfaces/simulator.rs`). -/
structure SwapArgs where
  amount_in : Nat
  target_pool : Nat
  input_token : Nat
  output_token : Nat
deriving DecidableEq

/-- Oracle for `EvmSimulator::v2_simulate_swap` with `commit = true`: from
a cache state and call arguments, either `none` (the call reverted or
halted, surfaced as `Err`) or the committed cache together with the
decoded `(expectedOut, actualOut)` pair. -/
def SwapOracle : Type :=
  CacheDB → SwapArgs → Option (CacheDB × Nat × Nat)

/-- `U256::as_u64` of the ethers `uint` crate: the checked conversion used
by both profit computations; it panics — modelled as `none` — when the
value does not fit in 64 bits. -/
def as_u64 (x : Nat) : Option Nat :=
  if x < 2 ^ 64 then some x else none

/-- Outcome of a bundle or path simulation: `err` is a returned
`Err(...)`, `panic` an uncaught Rust panic, `ok p` a returned `Ok(p)`. -/
inductive SimResult where
  | err : SimResult
  | panic : SimResult
  | ok : Int → SimResult
deriving DecidableEq

/-- The profit computation shared by `simulate_triangular_arbitrage`
(`arbitrage.rs` line 70) and `simulate_sandwich_bundle` (`sandwich.rs`
line 182): `(amount_out.as_u64() as i128) - (amount_in.as_u64() as i128)`. -/
def profit_i128 (amount_out amount_in : Nat) : SimResult :=
  match as_u64 amount_out, as_u64 amount_in with
  | some o, some i => .ok ((o : Int) - (i : Int))
  | _, _ => .panic

/-- One hop of an arbitrage path.  Modelled from the spec: `paths.rs` is
not in the source excerpt; the spec defines `ArbPath` as an ordered
sequence of `(pool, zero_for_one)` pairs read through `get_pool(n)` /
`get_zero_for_one(n)`. -/
structure Hop where
  pool : Pool
  zero_for_one : Bool
deriving DecidableEq

/-- `struct TriangularArbitrage` (`arbitrage.rs` lines 12-18). -/
structure TriangularArbitrage where
  amount_in : Nat
  path : List Hop
  balance_slot : Nat
  target_token : Token
deriving DecidableEq

/-- The hop loop of `simulate_triangular_arbitrage` (`arbitrage.rs` lines
50-68): each hop swaps on its pool with `(in, out) = (token0, token1)`
when `zero_for_one` and `(token1, token0)` otherwise, feeding the actual
output `out.1` forward; an erroring swap propagates with `?`. -/
def swap_hops (swap : SwapOracle) : CacheDB → Nat → List Hop → Option (CacheDB × Nat)
  | db, amount, [] => some (db, amount)
  | db, amount, hop :: rest =>
      match swap db
          { amount_in := amount
            target_pool := hop.pool.address
            input_token := if hop.zero_for_one then hop.pool.token0 else hop.pool.token1
            output_token := if hop.zero_for_one then hop.pool.token1 else hop.pool.token0 } with
      | none => none
      | some (db1, _expected, actual) => swap_hops swap db1 actual rest

/-- The cache `simulate_triangular_arbitrage` starts from (`arbitrage.rs`
lines 31-46): the injected fork db when supplied, else a fresh harness
seeded with 100000 ETH, the simulator bytecode, and 100000 target-token
units at the discovered balance slot. -/
def arb_init_db (hash : Nat → Nat → Nat) (simulator_code : List Nat) (owner : Nat)
    (arb : TriangularArbitrage) (fork_db : Option CacheDB) : CacheDB :=
  match fork_db with
  | some db => db
  | none =>
      (deploy_simulator
        (set_eth_balance (EvmSimulator_new owner 0) 100000) simulator_code).db
        |> fun db =>
          set_token_balance_db hash db simulator_address arb.target_token.address
            arb.target_token.decimals arb.balance_slot 100000

/-- `simulate_triangular_arbitrage` (`arbitrage.rs` lines 20-79): walk the
hops, then return `Ok(profit)` with
`profit = amount_out.as_u64() - amount_in.as_u64()`. -/
def simulate_triangular_arbitrage (swap : SwapOracle) (hash : Nat → Nat → Nat)
    (simulator_code : List Nat) (owner : Nat) (arb : TriangularArbitrage)
    (fork_db : Option CacheDB) : SimResult :=
  match swap_hops swap (arb_init_db hash simulator_code owner arb fork_db)
      arb.amount_in arb.path with
  | none => .err
  | some (_, amount_out) => profit_i128 amount_out arb.amount_in

/-- Specification-side chaining relation for a path walk: `HopChain swap
db a path dbf af` holds when walking `path` from cache `db` with input
`a`, each hop's swap succeeding and its actual output feeding the next
hop's input with the `(in, out)` tokens chosen by `zero_for_one`, ends in
cache `dbf` with final amount `af`. -/
inductive HopChain (swap : SwapOracle) : CacheDB → Nat → List Hop → CacheDB → Nat → Prop where
  | nil : ∀ db a, HopChain swap db a [] db a
  | cons : ∀ db a hop rest db1 expected actual dbf af,
      swap db
          { amount_in := a
            target_pool := hop.pool.address
            input_token := if hop.zero_for_one then hop.pool.token0 else hop.pool.token1
            output_token := if hop.zero_for_one then hop.pool.token1 else hop.pool.token0 } =
        some (db1, expected, actual) →
      HopChain swap db1 actual rest dbf af →
      HopChain swap db a (hop :: rest) dbf af

theorem swap_hops_iff_chain (swap : SwapOracle) :
    ∀ (path : List Hop) (db : CacheDB) (a : Nat) (dbf : CacheDB) (af : Nat),
      swap_hops swap db a path = some (dbf, af) ↔ HopChain swap db a path dbf af := by
  intro path
  induction path with
  | nil =>
      intro db a dbf af
      constructor
      · intro h
        simp only [swap_hops, Option.some.injEq, Prod.mk.injEq] at h
        obtain ⟨h1, h2⟩ := h
        subst h1; subst h2
        exact .nil db a
      · intro h
        cases h
        rfl
  | cons hop rest ih =>
      intro db a dbf af
      constructor
      · intro h
        simp only [swap_hops] at h
        cases hsw : swap db
            { amount_in := a
              target_pool := hop.pool.address
              input_token := if hop.zero_for_one then hop.pool.token0 else hop.pool.token1
              output_token := if hop.zero_for_one then hop.pool.token1 else hop.pool.token0 } with
        | none => rw [hsw] at h; exact absurd h (by simp)
        | some r =>
            rw [hsw] at h
            exact .cons db a hop rest r.1 r.2.1 r.2.2 dbf af (by rw [hsw]) ((ih r.1 r.2.2 dbf af).mp h)
      · intro h
        cases h with
        | cons db a hop rest db1 expected actual dbf af hsw hrest =>
            simp only [swap_hops, hsw]
            exact (ih db1 actual dbf af).mpr hrest

/-- C6: `simulate_triangular_arbitrage` walks the path hop by hop — each
hop's actual output is the next hop's input, with `(in, out) = (token0,
token1)` when `zero_for_one` and `(token1, token0)` otherwise — and, when
every hop succeeds and the amounts fit in 64 bits, returns `Ok` of
`amount_final − amount_in` in target-token atomic units; when the hops
cannot all be chained (a swap errors at some hop), the whole evaluation
returns an error. -/
theorem triangular_arbitrage_walk (swap : SwapOracle) (hash : Nat → Nat → Nat)
    (simulator_code : List Nat) (owner : Nat) (arb : TriangularArbitrage)
    (fork_db : Option CacheDB) :
    (∀ dbf af,
      HopChain swap (arb_init_db hash simulator_code owner arb fork_db)
          arb.amount_in arb.path dbf af →
      af < 2 ^ 64 → arb.amount_in < 2 ^ 64 →
      simulate_triangular_arbitrage swap hash simulator_code owner arb fork_db =
        .ok ((af : Int) - (arb.amount_in : Int))) ∧
    ((¬ ∃ dbf af,
        HopChain swap (arb_init_db hash simulator_code owner arb fork_db)
          arb.amount_in arb.path dbf af) →
      simulate_triangular_arbitrage swap hash simulator_code owner arb fork_db = .err) := by
  constructor
  · intro dbf af hchain hf hi
    have hrun : swap_hops swap (arb_init_db hash simulator_code owner arb fork_db)
        arb.amount_in arb.path = some (dbf, af) :=
      (swap_hops_iff_chain swap arb.path _ _ dbf af).mpr hchain
    simp only [simulate_triangular_arbitrage, hrun, profit_i128, as_u64, if_pos hf, if_pos hi]
  · intro hno
    cases hrun : swap_hops swap (arb_init_db hash simulator_code owner arb fork_db)
        arb.amount_in arb.path with
    | none => simp only [simulate_triangular_arbitrage, hrun]
    | some r =>
        exact absurd
          ⟨r.1, r.2, (swap_hops_iff_chain swap arb.path _ _ r.1 r.2).mp (by rw [hrun])⟩ hno

/-- A constant-markup oracle for witnesses: every swap succeeds, reports
`expected = actual = amount_in + 1`, and leaves the cache unchanged. -/
def markup_oracle : SwapOracle :=
  fun db args => some (db, args.amount_in + 1, args.amount_in + 1)

/-- A two-hop path over concrete pools for witnesses. -/
def witness_arb : TriangularArbitrage :=
  { amount_in := 5
    path := [⟨⟨11, 1, 2⟩, true⟩, ⟨⟨12, 1, 2⟩, false⟩]
    balance_slot := 2
    target_token := ⟨1, none, "T", "T", 6⟩ }

/-- C6 witness: on the concrete two-hop path with the markup oracle the
simulation returns `Ok(7 - 5) = Ok 2`. -/
theorem triangular_arbitrage_walk_witness :
    simulate_triangular_arbitrage markup_oracle (fun a s => a + s) [] 9 witness_arb none =
      .ok 2 := by
  have h := (triangular_arbitrage_walk markup_oracle (fun a s => a + s) [] 9 witness_arb none).1
    (arb_init_db (fun a s => a + s) [] 9 witness_arb none) 7
    (.cons _ 5 _ _ _ 6 6 _ 7 rfl (.cons _ 6 _ _ _ 7 7 _ 7 rfl (.nil _ 7)))
    (by decide) (by decide)
  exact h

/-- `struct Sandwich` (`sandwich.rs` lines 13-20); the `meat_tx` field is
represented by the `run_pending_tx` oracle below. -/
structure Sandwich where
  amount_in : Nat
  balance_slot : Nat
  target_token : Token
  target_pool : Pool
deriving DecidableEq

/-- The cache `simulate_sandwich_bundle` starts from (`sandwich.rs` lines
138-153): the injected fork db when supplied, else a fresh harness seeded
with 10000 ETH, the simulator bytecode, and 10000 target-token units. -/
def sandwich_init_db (hash : Nat → Nat → Nat) (simulator_code : List Nat) (owner : Nat)
    (sandwich : Sandwich) (fork_db : Option CacheDB) : CacheDB :=
  match fork_db with
  | some db => db
  | none =>
      (deploy_simulator
        (set_eth_balance (EvmSimulator_new owner 0) 10000) simulator_code).db
        |> fun db =>
          set_token_balance_db hash db simulator_address sandwich.target_token.address
            sandwich.target_token.decimals sandwich.balance_slot 10000

/-- The `(input_token, output_token)` orientation of the frontrun swap
(`sandwich.rs` lines 132-136). -/
def sandwich_swap_tokens (sandwich : Sandwich) : Nat × Nat :=
  if sandwich.target_pool.token0 = sandwich.target_token.address then
    (sandwich.target_pool.token0, sandwich.target_pool.token1)
  else (sandwich.target_pool.token1, sandwich.target_pool.token0)

/-- `simulate_sandwich_bundle` (`sandwich.rs` lines 113-186): frontrun
swap (error propagates with `?`), then `run_pending_tx` on the victim
transaction — a failure is only logged, the new cache and a success flag
are all that flow on — then backrun swap of the frontrun's actual output
(error propagates), then `Ok(backrun_out.1.as_u64() - amount_in.as_u64())`.
`run_pending_tx` is the oracle for `EvmSimulator::run_pending_tx` on
`sandwich.meat_tx`. -/
def simulate_sandwich_bundle (swap : SwapOracle)
    (run_pending_tx : CacheDB → CacheDB × Bool) (hash : Nat → Nat → Nat)
    (simulator_code : List Nat) (owner : Nat) (sandwich : Sandwich)
    (fork_db : Option CacheDB) : SimResult :=
  let amount_in := sandwich.amount_in
  let target_pool := sandwich.target_pool
  let tokens := sandwich_swap_tokens sandwich
  let db := sandwich_init_db hash simulator_code owner sandwich fork_db
  match swap db
      { amount_in := amount_in
        target_pool := target_pool.address
        input_token := tokens.1
        output_token := tokens.2 } with
  | none => .err
  | some (db1, _frontrun_expected, frontrun_actual) =>
      let meat := run_pending_tx db1
      match swap meat.1
          { amount_in := frontrun_actual
            target_pool := target_pool.address
            input_token := tokens.2
            output_token := tokens.1 } with
      | none => .err
      | some (_, _backrun_expected, backrun_actual) =>
          profit_i128 backrun_actual amount_in

/-- C9: a failure of the victim (meat) transaction does not abort the
bundle: when the frontrun and backrun swaps succeed, the bundle returns
`Ok(backrun_out − amount_in)` whatever the meat outcome — in particular
when it fails — while an error of the frontrun or of the backrun swap
aborts the bundle with an error. -/
theorem sandwich_bundle_meat_failure_tolerated (swap : SwapOracle)
    (run_pending_tx : CacheDB → CacheDB × Bool) (hash : Nat → Nat → Nat)
    (simulator_code : List Nat) (owner : Nat) (sandwich : Sandwich)
    (fork_db : Option CacheDB) :
    (∀ db1 fe fa db3 be ba,
      swap (sandwich_init_db hash simulator_code owner sandwich fork_db)
          { amount_in := sandwich.amount_in
            target_pool := sandwich.target_pool.address
            input_token := (sandwich_swap_tokens sandwich).1
            output_token := (sandwich_swap_tokens sandwich).2 } = some (db1, fe, fa) →
      swap (run_pending_tx db1).1
          { amount_in := fa
            target_pool := sandwich.target_pool.address
            input_token := (sandwich_swap_tokens sandwich).2
            output_token := (sandwich_swap_tokens sandwich).1 } = some (db3, be, ba) →
      ba < 2 ^ 64 → sandwich.amount_in < 2 ^ 64 →
      simulate_sandwich_bundle swap run_pending_tx hash simulator_code owner sandwich fork_db =
        .ok ((ba : Int) - (sandwich.amount_in : Int))) ∧
    (swap (sandwich_init_db hash simulator_code owner sandwich fork_db)
        { amount_in := sandwich.amount_in
          target_pool := sandwich.target_pool.address
          input_token := (sandwich_swap_tokens sandwich).1
          output_token := (sandwich_swap_tokens sandwich).2 } = none →
      simulate_sandwich_bundle swap run_pending_tx hash simulator_code owner sandwich fork_db =
        .err) ∧
    (∀ db1 fe fa,
      swap (sandwich_init_db hash simulator_code owner sandwich fork_db)
          { amount_in := sandwich.amount_in
            target_pool := sandwich.target_pool.address
            input_token := (sandwich_swap_tokens sandwich).1
            output_token := (sandwich_swap_tokens sandwich).2 } = some (db1, fe, fa) →
      swap (run_pending_tx db1).1
          { amount_in := fa
            target_pool := sandwich.target_pool.address
            input_token := (sandwich_swap_tokens sandwich).2
            output_token := (sandwich_swap_tokens sandwich).1 } = none →
      simulate_sandwich_bundle swap run_pending_tx hash simulator_code owner sandwich fork_db =
        .err) := by
  refine ⟨?_, ?_, ?_⟩
  · intro db1 fe fa db3 be ba hfront hback hba hin
    simp only [simulate_sandwich_bundle, sandwich_swap_tokens] at hfront hback ⊢
    rw [hfront]
    simp only [hback, profit_i128, as_u64, if_pos hba, if_pos hin]
  · intro hfront
    simp only [simulate_sandwich_bundle, sandwich_swap_tokens] at hfront ⊢
    rw [hfront]
  · intro db1 fe fa hfront hback
    simp only [simulate_sandwich_bundle, sandwich_swap_tokens] at hfront hback ⊢
    rw [hfront]
    simp only [hback]

/-- A meat oracle that always fails, leaving the cache unchanged. -/
def failing_meat : CacheDB → CacheDB × Bool :=
  fun db => (db, false)

/-- Concrete sandwich for witnesses. -/
def witness_sandwich : Sandwich :=
  { amount_in := 5
    balance_slot := 3
    target_token := ⟨1, none, "S", "S", 6⟩
    target_pool := ⟨21, 1, 2⟩ }

/-- C9 witness: with a failing meat transaction and succeeding frontrun
and backrun swaps, the bundle still returns `Ok(7 - 5) = Ok 2`. -/
theorem sandwich_bundle_meat_failure_witness :
    simulate_sandwich_bundle markup_oracle failing_meat (fun a s => a + s) [] 9
      witness_sandwich none = .ok 2 := by
  exact (sandwich_bundle_meat_failure_tolerated markup_oracle failing_meat (fun a s => a + s)
      [] 9 witness_sandwich none).1
    (sandwich_init_db (fun a s => a + s) [] 9 witness_sandwich none) 6 6
    (sandwich_init_db (fun a s => a + s) [] 9 witness_sandwich none) 7 7
    rfl rfl (by decide) (by decide)

/-- C10: both profit computations convert the `U256` amounts to `u64`
before subtracting: on success each simulator returns exactly
`profit_i128` of the final output and the input, which is the exact
integer difference whenever both fit in 64 bits, and is a panic — not a
returned error — whenever either is at least `2^64`. -/
theorem profit_u64_domain :
    (∀ amount_out amount_in : Nat, amount_out < 2 ^ 64 → amount_in < 2 ^ 64 →
      profit_i128 amount_out amount_in = .ok ((amount_out : Int) - (amount_in : Int))) ∧
    (∀ amount_out amount_in : Nat, 2 ^ 64 ≤ amount_out ∨ 2 ^ 64 ≤ amount_in →
      profit_i128 amount_out amount_in = .panic) ∧
    SimResult.panic ≠ SimResult.err ∧
    (∀ (swap : SwapOracle) (hash : Nat → Nat → Nat) (simulator_code : List Nat)
        (owner : Nat) (arb : TriangularArbitrage) (fork_db : Option CacheDB)
        (dbf : CacheDB) (af : Nat),
      swap_hops swap (arb_init_db hash simulator_code owner arb fork_db)
          arb.amount_in arb.path = some (dbf, af) →
      simulate_triangular_arbitrage swap hash simulator_code owner arb fork_db =
        profit_i128 af arb.amount_in) ∧
    (∀ (swap : SwapOracle) (run_pending_tx : CacheDB → CacheDB × Bool)
        (hash : Nat → Nat → Nat) (simulator_code : List Nat) (owner : Nat)
        (sandwich : Sandwich) (fork_db : Option CacheDB) (db1 : CacheDB) (fe fa : Nat)
        (db3 : CacheDB) (be ba : Nat),
      swap (sandwich_init_db hash simulator_code owner sandwich fork_db)
          { amount_in := sandwich.amount_in
            target_pool := sandwich.target_pool.address
            input_token := (sandwich_swap_tokens sandwich).1
            output_token := (sandwich_swap_tokens sandwich).2 } = some (db1, fe, fa) →
      swap (run_pending_tx db1).1
          { amount_in := fa
            target_pool := sandwich.target_pool.address
            input_token := (sandwich_swap_tokens sandwich).2
            output_token := (sandwich_swap_tokens sandwich).1 } = some (db3, be, ba) →
      simulate_sandwich_bundle swap run_pending_tx hash simulator_code owner sandwich fork_db =
        profit_i128 ba sandwich.amount_in) := by
  refine ⟨?_, ?_, by decide, ?_, ?_⟩
  · intro o i ho hi
    simp only [profit_i128, as_u64, if_pos ho, if_pos hi]
  · intro o i h
    rcases h with h | h
    · simp only [profit_i128, as_u64, if_neg (by omega : ¬ o < 2 ^ 64)]
    · simp only [profit_i128, as_u64, if_neg (by omega : ¬ i < 2 ^ 64)]
      cases hifo : (if o < 2 ^ 64 then some o else none) <;> rfl
  · intro swap hash simulator_code owner arb fork_db dbf af hrun
    simp only [simulate_triangular_arbitrage, hrun]
  · intro swap run_pending_tx hash simulator_code owner sandwich fork_db db1 fe fa db3 be ba
      hfront hback
    simp only [simulate_sandwich_bundle] at hfront hback ⊢
    rw [hfront]
    simp only [hback]

/-- C10 witness: the exact-difference case at `(7, 5)` and the panic case
at `(2^64, 5)`. -/
theorem profit_u64_domain_witness :
    profit_i128 7 5 = .ok 2 ∧ profit_i128 (2 ^ 64) 5 = .panic :=
  ⟨profit_u64_domain.1 7 5 (by decide) (by decide),
   profit_u64_domain.2.1 (2 ^ 64) 5 (Or.inl (Nat.le_refl (2 ^ 64)))⟩

/-- The mutable state of `HoneypotFilter` (`honeypot.rs` lines 30-37)
together with the harness cache the swaps commit into. -/
structure FilterState where
  token_info : List (Nat × Token)
  honeypot : List (Nat × Bool)
  safe_token_info : List (Nat × Token)
  balance_slots : List (Nat × Nat)
  db : CacheDB
deriving DecidableEq

/-- The probe part of one iteration of the pool loop of
`HoneypotFilter::filter_tokens` (`honeypot.rs` lines 165-253), entered
with the safe and test legs already designated: seed the simulator with
the notional, run the buy, compare expected with actual, run the sell of
the buy's actual output, compare again, and record the verdict.  `swap`
is the committing `v2_simulate_swap` oracle, `get_token_info` the
metadata fetch (`none` for `Err`).  `none` models the `unwrap` panic when
the safe token's balance slot is missing. -/
def honeypot_probe_step (swap : SwapOracle) (hash : Nat → Nat → Nat)
    (get_token_info : Nat → Option Token) (safe_tokens : SafeTokens)
    (st : FilterState) (pool_address safe_token test_token : Nat) : Option FilterState :=
  let amount_in_u32 := honeypot_amount_in_u32 safe_tokens safe_token
  match lookupA st.safe_token_info safe_token, lookupA st.balance_slots safe_token with
  | some safe_info, some safe_slot =>
      let db := set_token_balance_db hash st.db simulator_address safe_token
        safe_info.decimals safe_slot amount_in_u32
      let amount_in := honeypot_probe_amount safe_tokens safe_token safe_info.decimals
      match swap db ⟨amount_in, pool_address, safe_token, test_token⟩ with
      | none =>
          some { st with honeypot := insertA st.honeypot test_token true, db := db }
      | some (db1, e1, a1) =>
          if e1 = a1 then
            match swap db1 ⟨a1, pool_address, test_token, safe_token⟩ with
            | none =>
                some { st with honeypot := insertA st.honeypot test_token true, db := db1 }
            | some (db2, e2, a2) =>
                if e2 = a2 then
                  match get_token_info test_token with
                  | some info =>
                      some { st with
                             token_info := insertA st.token_info test_token info
                             db := db2 }
                  | none => some { st with db := db2 }
                else
                  some { st with honeypot := insertA st.honeypot test_token true, db := db2 }
          else
            some { st with honeypot := insertA st.honeypot test_token true, db := db1 }
  | _, _ => none

/-- One iteration of the pool loop of `HoneypotFilter::filter_tokens`
(`honeypot.rs` lines 142-254): skip pools whose two legs are both safe or
both unsafe, designate the safe and the test leg, skip already-classified
test tokens, and probe. -/
def filter_token_pool (swap : SwapOracle) (hash : Nat → Nat → Nat)
    (get_token_info : Nat → Option Token) (safe_tokens : SafeTokens)
    (st : FilterState) (pool : Pool) : Option FilterState :=
  let token0_is_safe := (lookupA st.safe_token_info pool.token0).isSome
  let token1_is_safe := (lookupA st.safe_token_info pool.token1).isSome
  if token0_is_safe && token1_is_safe then some st
  else if token0_is_safe || token1_is_safe then
    let st_pair :=
      if token0_is_safe then (pool.token0, pool.token1) else (pool.token1, pool.token0)
    if (lookupA st.token_info st_pair.2).isSome ||
        (lookupA st.honeypot st_pair.2).isSome then some st
    else
      honeypot_probe_step swap hash get_token_info safe_tokens st pool.address
        st_pair.1 st_pair.2
  else some st

/-- The honeypot condition as the claim words it (round trip with a 10%
tax threshold): honeypot when the buy reverts or
`buy_tax = (expected − actual) / expected ≥ 10%`, or the sell of the
buy's actual output reverts or its `sell_tax ≥ 10%`; the threshold
`(e − a) / e ≥ 1/10` is written `e ≤ 10 * (e − a)`. -/
def claim_honeypot_cond (swap : SwapOracle) (db : CacheDB)
    (amount_in pool_addr safe_token test_token : Nat) : Bool :=
  match swap db ⟨amount_in, pool_addr, safe_token, test_token⟩ with
  | none => true
  | some (db1, e1, a1) =>
      if e1 ≤ 10 * (e1 - a1) then true
      else
        match swap db1 ⟨a1, pool_addr, test_token, safe_token⟩ with
        | none => true
        | some (_, e2, a2) => e2 ≤ 10 * (e2 - a2)

/-- The honeypot condition the code implements: honeypot when the buy
reverts or its `expected ≠ actual`, or the sell of the buy's actual output
reverts or its `expected ≠ actual`. -/
def divergence_honeypot_cond (swap : SwapOracle) (db : CacheDB)
    (amount_in pool_addr safe_token test_token : Nat) : Bool :=
  match swap db ⟨amount_in, pool_addr, safe_token, test_token⟩ with
  | none => true
  | some (db1, e1, a1) =>
      if e1 = a1 then
        match swap db1 ⟨a1, pool_addr, test_token, safe_token⟩ with
        | none => true
        | some (_, e2, a2) => decide (e2 ≠ a2)
      else true

theorem honeypot_probe_step_verdict (swap : SwapOracle) (hash : Nat → Nat → Nat)
    (get_token_info : Nat → Option Token) (safe_tokens : SafeTokens)
    (st : FilterState) (pool_address safe_token test_token : Nat)
    (safe_info : Token) (safe_slot : Nat) (info : Token)
    (hsafe : lookupA st.safe_token_info safe_token = some safe_info)
    (hslot : lookupA st.balance_slots safe_token = some safe_slot)
    (hfresh_info : lookupA st.token_info test_token = none)
    (hfresh_hp : lookupA st.honeypot test_token = none)
    (hmeta : get_token_info test_token = some info) :
    ∃ st2, honeypot_probe_step swap hash get_token_info safe_tokens st pool_address
        safe_token test_token = some st2 ∧
      (lookupA st2.honeypot test_token).isSome =
        divergence_honeypot_cond swap
          (set_token_balance_db hash st.db simulator_address safe_token
            safe_info.decimals safe_slot (honeypot_amount_in_u32 safe_tokens safe_token))
          (honeypot_probe_amount safe_tokens safe_token safe_info.decimals)
          pool_address safe_token test_token ∧
      (lookupA st2.token_info test_token).isSome =
        !(divergence_honeypot_cond swap
          (set_token_balance_db hash st.db simulator_address safe_token
            safe_info.decimals safe_slot (honeypot_amount_in_u32 safe_tokens safe_token))
          (honeypot_probe_amount safe_tokens safe_token safe_info.decimals)
          pool_address safe_token test_token) := by
  simp only [honeypot_probe_step, hsafe, hslot]
  cases hbuy : swap
      (set_token_balance_db hash st.db simulator_address safe_token
        safe_info.decimals safe_slot (honeypot_amount_in_u32 safe_tokens safe_token))
      ⟨honeypot_probe_amount safe_tokens safe_token safe_info.decimals,
        pool_address, safe_token, test_token⟩ with
  | none =>
      refine ⟨_, rfl, ?_, ?_⟩
      · simp [divergence_honeypot_cond, hbuy, insertA, lookupA]
      · simp [divergence_honeypot_cond, hbuy, hfresh_info]
  | some r1 =>
      obtain ⟨db1, e1, a1⟩ := r1
      dsimp only
      by_cases he1 : e1 = a1
      · rw [if_pos he1]
        cases hsell : swap db1 ⟨a1, pool_address, test_token, safe_token⟩ with
        | none =>
            refine ⟨_, rfl, ?_, ?_⟩
            · simp [divergence_honeypot_cond, hbuy, he1, hsell, insertA, lookupA]
            · simp [divergence_honeypot_cond, hbuy, he1, hsell, hfresh_info]
        | some r2 =>
            obtain ⟨db2, e2, a2⟩ := r2
            dsimp only
            by_cases he2 : e2 = a2
            · rw [if_pos he2, hmeta]
              refine ⟨_, rfl, ?_, ?_⟩
              · simp [divergence_honeypot_cond, hbuy, he1, hsell, he2, hfresh_hp]
              · simp [divergence_honeypot_cond, hbuy, he1, hsell, he2, insertA, lookupA]
            · rw [if_neg he2]
              refine ⟨_, rfl, ?_, ?_⟩
              · simp [divergence_honeypot_cond, hbuy, he1, hsell, he2, insertA, lookupA]
              · simp [divergence_honeypot_cond, hbuy, he1, hsell, he2, hfresh_info]
      · rw [if_neg he1]
        refine ⟨_, rfl, ?_, ?_⟩
        · simp [divergence_honeypot_cond, hbuy, he1, insertA, lookupA]
        · simp [divergence_honeypot_cond, hbuy, he1, hfresh_info]

/-- C1 (amended): for a pool pairing a fresh test token with exactly one
safe token, the pool step marks the test token honeypot exactly when the
buy swap reverts or its expected and actual outputs differ, or the sell
swap of the buy's actual output reverts or its expected and actual
outputs differ; otherwise (the metadata fetch succeeding) the test token
is admitted to the verified token set. -/
theorem honeypot_divergence_rule (swap : SwapOracle) (hash : Nat → Nat → Nat)
    (get_token_info : Nat → Option Token) (safe_tokens : SafeTokens)
    (st : FilterState) (pool : Pool) (safe_token test_token : Nat)
    (safe_info : Token) (safe_slot : Nat) (info : Token)
    (hxor : (lookupA st.safe_token_info pool.token0).isSome ≠
      (lookupA st.safe_token_info pool.token1).isSome)
    (hdesig : (if (lookupA st.safe_token_info pool.token0).isSome then
        (pool.token0, pool.token1) else (pool.token1, pool.token0)) =
      (safe_token, test_token))
    (hsafe : lookupA st.safe_token_info safe_token = some safe_info)
    (hslot : lookupA st.balance_slots safe_token = some safe_slot)
    (hfresh_info : lookupA st.token_info test_token = none)
    (hfresh_hp : lookupA st.honeypot test_token = none)
    (hmeta : get_token_info test_token = some info) :
    ∃ st2, filter_token_pool swap hash get_token_info safe_tokens st pool = some st2 ∧
      (lookupA st2.honeypot test_token).isSome =
        divergence_honeypot_cond swap
          (set_token_balance_db hash st.db simulator_address safe_token
            safe_info.decimals safe_slot (honeypot_amount_in_u32 safe_tokens safe_token))
          (honeypot_probe_amount safe_tokens safe_token safe_info.decimals)
          pool.address safe_token test_token ∧
      (lookupA st2.token_info test_token).isSome =
        !(divergence_honeypot_cond swap
          (set_token_balance_db hash st.db simulator_address safe_token
            safe_info.decimals safe_slot (honeypot_amount_in_u32 safe_tokens safe_token))
          (honeypot_probe_amount safe_tokens safe_token safe_info.decimals)
          pool.address safe_token test_token) := by
  have hred : filter_token_pool swap hash get_token_info safe_tokens st pool =
      honeypot_probe_step swap hash get_token_info safe_tokens st pool.address
        safe_token test_token := by
    cases hb0 : (lookupA st.safe_token_info pool.token0).isSome with
    | true =>
        cases hb1 : (lookupA st.safe_token_info pool.token1).isSome with
        | true => rw [hb0, hb1] at hxor; exact absurd rfl hxor
        | false =>
            rw [hb0, if_pos rfl] at hdesig
            injection hdesig with h1 h2
            rw [h1] at hb0
            rw [h2] at hb1
            simp [filter_token_pool, h1, h2, hb0, hb1, hfresh_info, hfresh_hp]
    | false =>
        cases hb1 : (lookupA st.safe_token_info pool.token1).isSome with
        | false => rw [hb0, hb1] at hxor; exact absurd rfl hxor
        | true =>
            rw [hb0, if_neg (by simp)] at hdesig
            injection hdesig with h1 h2
            rw [h2] at hb0
            rw [h1] at hb1
            simp [filter_token_pool, h1, h2, hb0, hb1, hfresh_info, hfresh_hp]
  rw [hred]
  exact honeypot_probe_step_verdict swap hash get_token_info safe_tokens st pool.address
    safe_token test_token safe_info safe_slot info hsafe hslot hfresh_info hfresh_hp hmeta

/-- A tax-free oracle for the C1 witness: expected and actual always
agree. -/
def wit_swap : SwapOracle :=
  fun db args => some (db, args.amount_in * 2, args.amount_in * 2)

/-- Filter state for the C1 witness: USDT resolved as safe with balance
slot 2, nothing classified yet. -/
def wit_state : FilterState :=
  { token_info := []
    honeypot := []
    safe_token_info := [(SafeTokens.new.usdt, ⟨SafeTokens.new.usdt, none, "USDT", "USDT", 6⟩)]
    balance_slots := [(SafeTokens.new.usdt, 2)]
    db := ⟨[], []⟩ }

/-- Pool for the C1 witness: USDT against test token 88. -/
def wit_pool : Pool :=
  ⟨900, SafeTokens.new.usdt, 88⟩

/-- C1 witness: on the concrete USDT pool with the tax-free oracle, the
pool step's verdict agrees with the divergence condition. -/
theorem honeypot_divergence_rule_witness :
    ∃ st2, filter_token_pool wit_swap (fun a s => a + s)
        (fun _ => some ⟨88, none, "X", "X", 9⟩) SafeTokens.new wit_state wit_pool = some st2 ∧
      (lookupA st2.honeypot 88).isSome =
        divergence_honeypot_cond wit_swap
          (set_token_balance_db (fun a s => a + s) wit_state.db simulator_address
            SafeTokens.new.usdt 6 2 (honeypot_amount_in_u32 SafeTokens.new SafeTokens.new.usdt))
          (honeypot_probe_amount SafeTokens.new SafeTokens.new.usdt 6)
          900 SafeTokens.new.usdt 88 ∧
      (lookupA st2.token_info 88).isSome =
        !(divergence_honeypot_cond wit_swap
          (set_token_balance_db (fun a s => a + s) wit_state.db simulator_address
            SafeTokens.new.usdt 6 2 (honeypot_amount_in_u32 SafeTokens.new SafeTokens.new.usdt))
          (honeypot_probe_amount SafeTokens.new SafeTokens.new.usdt 6)
          900 SafeTokens.new.usdt 88) :=
  honeypot_divergence_rule wit_swap (fun a s => a + s)
    (fun _ => some ⟨88, none, "X", "X", 9⟩) SafeTokens.new wit_state wit_pool
    SafeTokens.new.usdt 88 ⟨SafeTokens.new.usdt, none, "USDT", "USDT", 6⟩ 2
    ⟨88, none, "X", "X", 9⟩ (by decide) (by decide) (by decide) (by decide) rfl rfl rfl

/-- A 5%-tax oracle for the C1 counterexample: a buy of the test token 77
reports `(expected, actual) = (100, 95)`, a sell reports `(10, 10)`. -/
def cex_swap : SwapOracle :=
  fun db args =>
    if args.input_token = 77 then some (db, 10, 10) else some (db, 100, 95)

/-- Filter state for the C1 counterexample: WETH resolved as safe with
balance slot 3, nothing classified yet. -/
def cex_state : FilterState :=
  { token_info := []
    honeypot := []
    safe_token_info := [(SafeTokens.new.weth, ⟨SafeTokens.new.weth, none, "WETH", "WETH", 18⟩)]
    balance_slots := [(SafeTokens.new.weth, 3)]
    db := ⟨[], []⟩ }

/-- Pool for the C1 counterexample: WETH against test token 77. -/
def cex_pool : Pool :=
  ⟨501, SafeTokens.new.weth, 77⟩

/-- C1 counterexample: with a buy reporting `(expected, actual) =
(100, 95)` — a 5% buy tax, below the claim's 10% threshold — and a
tax-free sell, the code still marks token 77 as honeypot and does not
admit it, while the claim's round-trip condition (buy revert or
`buy_tax ≥ 10%` or sell revert or `sell_tax ≥ 10%`) is false. -/
theorem honeypot_threshold_counterexample :
    Option.map (fun st2 => ((lookupA st2.honeypot 77).isSome, (lookupA st2.token_info 77).isSome))
        (filter_token_pool cex_swap (fun a s => a + s) (fun _ => some ⟨77, none, "X", "X", 9⟩)
          SafeTokens.new cex_state cex_pool) = some (true, false) ∧
    claim_honeypot_cond cex_swap
        (set_token_balance_db (fun a s => a + s) cex_state.db simulator_address
          SafeTokens.new.weth 18 3 (honeypot_amount_in_u32 SafeTokens.new SafeTokens.new.weth))
        (honeypot_probe_amount SafeTokens.new SafeTokens.new.weth 18)
        501 SafeTokens.new.weth 77 = false := by
  constructor
  · decide
  · decide

/-- Pool-touch detection and direction inference of `get_touched_pools`
(`strategy.rs` lines 28-143), given the prestate-diff trace of a pending
transaction as `pre` / `post` account maps.

Inner pool loop (Step 2, lines 97-127): for each touched pool compute
`bal_key = keccak256(abi_encode(pool, slot))`; when the key is in the
safe token's pre-state storage, read the post-state balance — the three
`unwrap`s on the post-state lookups are modelled by `none` — and when
`pre_balance < post_balance` record the pool as sandwichable with this
safe token. -/
def touched_pool_loop (hash : Nat → Nat → Nat) (post : List (Nat × AccountState))
    (pre_storage : List (Nat × Nat)) (safe_addr slot : Nat) :
    List Nat → List (Nat × Option Nat) → Option (List (Nat × Option Nat))
  | [], m => some m
  | pool :: rest, m =>
      match lookupA pre_storage (hash pool slot) with
      | none => touched_pool_loop hash post pre_storage safe_addr slot rest m
      | some pre_balance =>
          match lookupA post safe_addr with
          | none => none
          | some token_poststate =>
              match token_poststate.storage with
              | none => none
              | some post_storage =>
                  match lookupA post_storage (hash pool slot) with
                  | none => none
                  | some post_balance =>
                      if pre_balance < post_balance then
                        touched_pool_loop hash post pre_storage safe_addr slot rest
                          (insertA m pool (some safe_addr))
                      else touched_pool_loop hash post pre_storage safe_addr slot rest m

/-- Outer loop of Step 2 of `get_touched_pools` (`strategy.rs` lines
91-133): for each safe token, resolve its pre-state entry and its storage
(skipping the token when either is absent), `unwrap` its balance slot
(`none` models the panic when absent), and run the pool loop. -/
def safe_token_loop (hash : Nat → Nat → Nat) (pre post : List (Nat × AccountState))
    (balance_slots : List (Nat × Nat)) (touched : List Nat) :
    List Token → List (Nat × Option Nat) → Option (List (Nat × Option Nat))
  | [], m => some m
  | safe_token :: rest, m =>
      match lookupA pre safe_token.address with
      | none => safe_token_loop hash pre post balance_slots touched rest m
      | some token_prestate =>
          match token_prestate.storage with
          | none => safe_token_loop hash pre post balance_slots touched rest m
          | some pre_storage =>
              match lookupA balance_slots safe_token.address with
              | none => none
              | some slot =>
                  match touched_pool_loop hash post pre_storage safe_token.address slot
                      touched m with
                  | none => none
                  | some m2 => safe_token_loop hash pre post balance_slots touched rest m2

/-- `get_touched_pools` (`strategy.rs` lines 28-143) after the
prestate-diff trace arrives: Step 1 collects the post-state accounts that
are verified pools, mapping each to `None`; when none are touched the map
is returned at once; Step 2 upgrades a pool's entry to `Some(safe_token)`
when the transaction increases that safe token's balance of the pool.
`safe_tokens_list` is the value list of `honeypot_filter.safe_token_info`. -/
def get_touched_pools (hash : Nat → Nat → Nat) (verified_pools : List Nat)
    (safe_tokens_list : List Token) (balance_slots : List (Nat × Nat))
    (pre post : List (Nat × AccountState)) : Option (List (Nat × Option Nat)) :=
  let touched_pools := (post.map Prod.fst).filter fun a => decide (a ∈ verified_pools)
  let sandwichable_pools := touched_pools.foldl (fun m p => insertA m p none) []
  if touched_pools.isEmpty then some sandwichable_pools
  else
    safe_token_loop hash pre post balance_slots touched_pools safe_tokens_list
      sandwichable_pools

/-- The claim's direction condition for safe token `S` and pool `pool`:
the storage key `keccak256(abi_encode(pool, k_S))` is present in `S`'s
pre-state storage and the pre-balance is strictly below the
post-balance. -/
def sandwichable_cond (hash : Nat → Nat → Nat) (balance_slots : List (Nat × Nat))
    (pre post : List (Nat × AccountState)) (S pool : Nat) : Prop :=
  ∃ prestate pre_storage slot pre_balance,
    lookupA pre S = some prestate ∧
    prestate.storage = some pre_storage ∧
    lookupA balance_slots S = some slot ∧
    lookupA pre_storage (hash pool slot) = some pre_balance ∧
    ∃ poststate post_storage post_balance,
      lookupA post S = some poststate ∧
      poststate.storage = some post_storage ∧
      lookupA post_storage (hash pool slot) = some post_balance ∧
      pre_balance < post_balance

/-- The direction condition relative to an already-resolved safe-token
pre-state storage and slot. -/
def inner_cond (hash : Nat → Nat → Nat) (post : List (Nat × AccountState))
    (pre_storage : List (Nat × Nat)) (S slot a : Nat) : Prop :=
  ∃ pre_balance, lookupA pre_storage (hash a slot) = some pre_balance ∧
    ∃ poststate post_storage post_balance,
      lookupA post S = some poststate ∧
      poststate.storage = some post_storage ∧
      lookupA post_storage (hash a slot) = some post_balance ∧
      pre_balance < post_balance

theorem sandwichable_cond_iff_inner (hash : Nat → Nat → Nat)
    (balance_slots : List (Nat × Nat)) (pre post : List (Nat × AccountState))
    (S a : Nat) (ps : AccountState) (pre_storage : List (Nat × Nat)) (slot : Nat)
    (hpre : lookupA pre S = some ps) (hst : ps.storage = some pre_storage)
    (hslot : lookupA balance_slots S = some slot) :
    sandwichable_cond hash balance_slots pre post S a ↔
      inner_cond hash post pre_storage S slot a := by
  constructor
  · rintro ⟨ps2, pstor2, slot2, pb, hpre2, hst2, hslot2, hk, rest⟩
    rw [hpre] at hpre2
    cases hpre2
    rw [hst] at hst2
    cases hst2
    rw [hslot] at hslot2
    cases hslot2
    exact ⟨pb, hk, rest⟩
  · rintro ⟨pb, hk, rest⟩
    exact ⟨ps, pre_storage, slot, pb, hpre, hst, hslot, hk, rest⟩

theorem touched_pool_loop_lookup (hash : Nat → Nat → Nat)
    (post : List (Nat × AccountState)) (pre_storage : List (Nat × Nat)) (S slot : Nat)
    (hpost : ∀ key val, lookupA pre_storage key = some val →
      ∃ ps2 post_storage val2, lookupA post S = some ps2 ∧
        ps2.storage = some post_storage ∧ lookupA post_storage key = some val2) :
    ∀ (pools : List Nat) (m : List (Nat × Option Nat)),
      ∃ m2, touched_pool_loop hash post pre_storage S slot pools m = some m2 ∧
        ∀ a, (a ∈ pools → inner_cond hash post pre_storage S slot a →
              lookupA m2 a = some (some S)) ∧
          ((a ∉ pools ∨ ¬ inner_cond hash post pre_storage S slot a) →
              lookupA m2 a = lookupA m a) := by
  intro pools
  induction pools with
  | nil =>
      intro m
      refine ⟨m, rfl, fun a => ⟨fun h => absurd h (List.not_mem_nil a), fun _ => rfl⟩⟩
  | cons pool rest ih =>
      intro m
      cases hk : lookupA pre_storage (hash pool slot) with
      | none =>
          obtain ⟨m2, hrun, hchar⟩ := ih m
          refine ⟨m2, ?_, ?_⟩
          · simp only [touched_pool_loop, hk, hrun]
          · intro a
            constructor
            · intro hmem hcond
              rcases List.mem_cons.mp hmem with heq | hr
              · subst heq
                obtain ⟨pb, hpb, _⟩ := hcond
                rw [hk] at hpb
                exact absurd hpb (by simp)
              · exact (hchar a).1 hr hcond
            · intro hside
              refine (hchar a).2 ?_
              rcases hside with hnm | hnc
              · exact Or.inl fun hr => hnm (List.mem_cons_of_mem pool hr)
              · exact Or.inr hnc
      | some pre_balance =>
          obtain ⟨ps2, post_storage, val2, hps2, hst2, hval2⟩ :=
            hpost (hash pool slot) pre_balance hk
          by_cases hlt : pre_balance < val2
          · obtain ⟨m2, hrun, hchar⟩ := ih (insertA m pool (some S))
            have hcondpool : inner_cond hash post pre_storage S slot pool :=
              ⟨pre_balance, hk, ps2, post_storage, val2, hps2, hst2, hval2, hlt⟩
            refine ⟨m2, ?_, ?_⟩
            · simp only [touched_pool_loop, hk, hps2, hst2, hval2, if_pos hlt, hrun]
            · intro a
              constructor
              · intro hmem hcond
                rcases List.mem_cons.mp hmem with heq | hr
                · subst heq
                  by_cases hr2 : a ∈ rest
                  · exact (hchar a).1 hr2 hcond
                  · rw [(hchar a).2 (Or.inl hr2)]
                    simp [insertA, lookupA]
                · exact (hchar a).1 hr hcond
              · intro hside
                have hna : a ≠ pool := by
                  intro heq
                  subst heq
                  rcases hside with hnm | hnc
                  · exact hnm (List.mem_cons_self a rest)
                  · exact hnc hcondpool
                have hrest : a ∉ rest ∨ ¬ inner_cond hash post pre_storage S slot a := by
                  rcases hside with hnm | hnc
                  · exact Or.inl fun hr => hnm (List.mem_cons_of_mem pool hr)
                  · exact Or.inr hnc
                rw [(hchar a).2 hrest]
                simp [insertA, lookupA, Ne.symm hna]
          · obtain ⟨m2, hrun, hchar⟩ := ih m
            refine ⟨m2, ?_, ?_⟩
            · simp only [touched_pool_loop, hk, hps2, hst2, hval2, if_neg hlt, hrun]
            · intro a
              constructor
              · intro hmem hcond
                rcases List.mem_cons.mp hmem with heq | hr
                · subst heq
                  obtain ⟨pb, hpb, ps3, pstor3, val3, hps3, hst3, hval3, hlt3⟩ := hcond
                  rw [hk] at hpb
                  cases hpb
                  rw [hps2] at hps3
                  cases hps3
                  rw [hst2] at hst3
                  cases hst3
                  rw [hval2] at hval3
                  cases hval3
                  exact absurd hlt3 hlt
                · exact (hchar a).1 hr hcond
              · intro hside
                refine (hchar a).2 ?_
                rcases hside with hnm | hnc
                · exact Or.inl fun hr => hnm (List.mem_cons_of_mem pool hr)
                · exact Or.inr hnc

theorem foldl_insert_none_lookup (touched : List Nat) :
    ∀ (m0 : List (Nat × Option Nat)) (a : Nat),
      lookupA (touched.foldl (fun m p => insertA m p none) m0) a =
        if a ∈ touched then some none else lookupA m0 a := by
  induction touched with
  | nil => intro m0 a; simp
  | cons p rest ih =>
      intro m0 a
      simp only [List.foldl_cons, ih (insertA m0 p none) a]
      by_cases ha : a ∈ rest
      · simp [ha, List.mem_cons]
      · by_cases hap : a = p
        · subst hap
          simp [ha, insertA, lookupA]
        · simp [ha, hap, insertA, lookupA, Ne.symm hap]

theorem safe_token_loop_lookup (hash : Nat → Nat → Nat)
    (pre post : List (Nat × AccountState)) (balance_slots : List (Nat × Nat))
    (touched : List Nat) :
    ∀ (toks : List Token) (m : List (Nat × Option Nat)),
      (∀ tok ∈ toks, ∀ ps pre_storage,
        lookupA pre tok.address = some ps → ps.storage = some pre_storage →
        (lookupA balance_slots tok.address).isSome) →
      (∀ tok ∈ toks, ∀ ps pre_storage key val,
        lookupA pre tok.address = some ps → ps.storage = some pre_storage →
        lookupA pre_storage key = some val →
        ∃ ps2 post_storage val2, lookupA post tok.address = some ps2 ∧
          ps2.storage = some post_storage ∧ lookupA post_storage key = some val2) →
      ∃ m2, safe_token_loop hash pre post balance_slots touched toks m = some m2 ∧
        ∀ a,
          ((∃ tok ∈ toks, sandwichable_cond hash balance_slots pre post tok.address a) →
            a ∈ touched →
            ∃ S, lookupA m2 a = some (some S) ∧ (∃ tok ∈ toks, tok.address = S) ∧
              sandwichable_cond hash balance_slots pre post S a) ∧
          (((∀ tok ∈ toks, ¬ sandwichable_cond hash balance_slots pre post tok.address a) ∨
              a ∉ touched) →
            lookupA m2 a = lookupA m a) := by
  intro toks
  induction toks with
  | nil =>
      intro m _ _
      refine ⟨m, rfl, fun a => ⟨fun h _ => absurd h (by simp), fun _ => rfl⟩⟩
  | cons tok rest ih =>
      intro m hSlots hPost
      have hSlots2 : ∀ t ∈ rest, ∀ ps pre_storage,
          lookupA pre t.address = some ps → ps.storage = some pre_storage →
          (lookupA balance_slots t.address).isSome :=
        fun t ht => hSlots t (List.mem_cons_of_mem tok ht)
      have hPost2 : ∀ t ∈ rest, ∀ ps pre_storage key val,
          lookupA pre t.address = some ps → ps.storage = some pre_storage →
          lookupA pre_storage key = some val →
          ∃ ps2 post_storage val2, lookupA post t.address = some ps2 ∧
            ps2.storage = some post_storage ∧ lookupA post_storage key = some val2 :=
        fun t ht => hPost t (List.mem_cons_of_mem tok ht)
      cases hpre : lookupA pre tok.address with
      | none =>
          have hnone : ∀ a, ¬ sandwichable_cond hash balance_slots pre post tok.address a := by
            rintro a ⟨ps, pstor, slot, pb, hpre2, _⟩
            rw [hpre] at hpre2
            exact absurd hpre2 (by simp)
          obtain ⟨m2, hrun, hchar⟩ := ih m hSlots2 hPost2
          refine ⟨m2, by simp only [safe_token_loop, hpre, hrun], ?_⟩
          intro a
          constructor
          · intro hex hmem
            obtain ⟨t, ht, hcond⟩ := hex
            rcases List.mem_cons.mp ht with rfl | hr
            · exact absurd hcond (hnone a)
            · obtain ⟨S, h1, ⟨t2, ht2, h2⟩, h3⟩ := (hchar a).1 ⟨t, hr, hcond⟩ hmem
              exact ⟨S, h1, ⟨t2, List.mem_cons_of_mem tok ht2, h2⟩, h3⟩
          · intro hside
            refine (hchar a).2 ?_
            rcases hside with hall | hnm
            · exact Or.inl fun t ht => hall t (List.mem_cons_of_mem tok ht)
            · exact Or.inr hnm
      | some ps =>
          cases hst : ps.storage with
          | none =>
              have hnone : ∀ a,
                  ¬ sandwichable_cond hash balance_slots pre post tok.address a := by
                rintro a ⟨ps2, pstor, slot, pb, hpre2, hst2, _⟩
                rw [hpre] at hpre2
                cases hpre2
                rw [hst] at hst2
                exact absurd hst2 (by simp)
              obtain ⟨m2, hrun, hchar⟩ := ih m hSlots2 hPost2
              refine ⟨m2, by simp only [safe_token_loop, hpre, hst, hrun], ?_⟩
              intro a
              constructor
              · intro hex hmem
                obtain ⟨t, ht, hcond⟩ := hex
                rcases List.mem_cons.mp ht with rfl | hr
                · exact absurd hcond (hnone a)
                · obtain ⟨S, h1, ⟨t2, ht2, h2⟩, h3⟩ := (hchar a).1 ⟨t, hr, hcond⟩ hmem
                  exact ⟨S, h1, ⟨t2, List.mem_cons_of_mem tok ht2, h2⟩, h3⟩
              · intro hside
                refine (hchar a).2 ?_
                rcases hside with hall | hnm
                · exact Or.inl fun t ht => hall t (List.mem_cons_of_mem tok ht)
                · exact Or.inr hnm
          | some pre_storage =>
              obtain ⟨slot, hslot⟩ := Option.isSome_iff_exists.mp
                (hSlots tok (List.mem_cons_self tok rest) ps pre_storage hpre hst)
              have hpost_tok : ∀ key val, lookupA pre_storage key = some val →
                  ∃ ps2 post_storage val2, lookupA post tok.address = some ps2 ∧
                    ps2.storage = some post_storage ∧ lookupA post_storage key = some val2 :=
                fun key val hkey =>
                  hPost tok (List.mem_cons_self tok rest) ps pre_storage key val hpre hst hkey
              have bridge : ∀ a,
                  sandwichable_cond hash balance_slots pre post tok.address a ↔
                    inner_cond hash post pre_storage tok.address slot a :=
                fun a => sandwichable_cond_iff_inner hash balance_slots pre post
                  tok.address a ps pre_storage slot hpre hst hslot
              obtain ⟨m1, hrun1, hchar1⟩ :=
                touched_pool_loop_lookup hash post pre_storage tok.address slot hpost_tok
                  touched m
              obtain ⟨m2, hrun2, hchar2⟩ := ih m1 hSlots2 hPost2
              refine ⟨m2, by simp only [safe_token_loop, hpre, hst, hslot, hrun1, hrun2], ?_⟩
              intro a
              constructor
              · intro hex hmem
                by_cases hrex : ∃ t ∈ rest,
                    sandwichable_cond hash balance_slots pre post t.address a
                · obtain ⟨S, h1, ⟨t2, ht2, h2⟩, h3⟩ := (hchar2 a).1 hrex hmem
                  exact ⟨S, h1, ⟨t2, List.mem_cons_of_mem tok ht2, h2⟩, h3⟩
                · obtain ⟨t, ht, hcond⟩ := hex
                  have hcondtok :
                      sandwichable_cond hash balance_slots pre post tok.address a := by
                    rcases List.mem_cons.mp ht with rfl | hr
                    · exact hcond
                    · exact absurd ⟨t, hr, hcond⟩ hrex
                  have h1 : lookupA m2 a = lookupA m1 a :=
                    (hchar2 a).2 (Or.inl fun t2 ht2 hc => hrex ⟨t2, ht2, hc⟩)
                  have h2 : lookupA m1 a = some (some tok.address) :=
                    (hchar1 a).1 hmem ((bridge a).mp hcondtok)
                  exact ⟨tok.address, by rw [h1, h2],
                    ⟨tok, List.mem_cons_self tok rest, rfl⟩, hcondtok⟩
              · intro hside
                rcases hside with hall | hnm
                · have h1 : lookupA m2 a = lookupA m1 a :=
                    (hchar2 a).2 (Or.inl fun t ht => hall t (List.mem_cons_of_mem tok ht))
                  have h2 : lookupA m1 a = lookupA m a :=
                    (hchar1 a).2 (Or.inr fun hi =>
                      hall tok (List.mem_cons_self tok rest) ((bridge a).mpr hi))
                  rw [h1, h2]
                · have h1 : lookupA m2 a = lookupA m1 a := (hchar2 a).2 (Or.inr hnm)
                  have h2 : lookupA m1 a = lookupA m a := (hchar1 a).2 (Or.inl hnm)
                  rw [h1, h2]

/-- C2: `get_touched_pools` returns a map whose keys are exactly the
touched verified pools — the post-state accounts of the prestate-diff
trace that are verified pools — in which a pool maps to `Some(S)` exactly
when some safe token `S` with known balance slot `k_S` has the storage
key `keccak256(abi_encode(pool, k_S))` in its pre-state storage with the
pre-balance strictly below the post-balance, and maps to `None`
otherwise.  The hypotheses express the well-formedness of a diff-mode
trace: a safe token appearing in the pre map with storage has a known
balance slot, and every storage key of a pre entry also appears in the
corresponding post entry. -/
theorem get_touched_pools_characterisation (hash : Nat → Nat → Nat)
    (verified_pools : List Nat) (safe_tokens_list : List Token)
    (balance_slots : List (Nat × Nat)) (pre post : List (Nat × AccountState))
    (hSlots : ∀ tok ∈ safe_tokens_list, ∀ ps pre_storage,
      lookupA pre tok.address = some ps → ps.storage = some pre_storage →
      (lookupA balance_slots tok.address).isSome)
    (hPost : ∀ tok ∈ safe_tokens_list, ∀ ps pre_storage key val,
      lookupA pre tok.address = some ps → ps.storage = some pre_storage →
      lookupA pre_storage key = some val →
      ∃ ps2 post_storage val2, lookupA post tok.address = some ps2 ∧
        ps2.storage = some post_storage ∧ lookupA post_storage key = some val2) :
    ∃ m, get_touched_pools hash verified_pools safe_tokens_list balance_slots pre post =
        some m ∧
      (∀ a, (lookupA m a).isSome ↔ (a ∈ post.map Prod.fst ∧ a ∈ verified_pools)) ∧
      ∀ pool, pool ∈ post.map Prod.fst → pool ∈ verified_pools →
        ((∃ S, lookupA m pool = some (some S) ∧
            (∃ tok ∈ safe_tokens_list, tok.address = S) ∧
            sandwichable_cond hash balance_slots pre post S pool) ↔
          (∃ tok ∈ safe_tokens_list,
            sandwichable_cond hash balance_slots pre post tok.address pool)) ∧
        (lookupA m pool = some none ↔
          ¬ ∃ tok ∈ safe_tokens_list,
            sandwichable_cond hash balance_slots pre post tok.address pool) := by
  have htmem : ∀ a : Nat,
      a ∈ (post.map Prod.fst).filter (fun a => decide (a ∈ verified_pools)) ↔
        (a ∈ post.map Prod.fst ∧ a ∈ verified_pools) := by
    intro a
    simp [List.mem_filter]
  have hm0 : ∀ a : Nat,
      lookupA (((post.map Prod.fst).filter (fun a => decide (a ∈ verified_pools))).foldl
        (fun m p => insertA m p none) ([] : List (Nat × Option Nat))) a =
        if a ∈ (post.map Prod.fst).filter (fun a => decide (a ∈ verified_pools)) then
          some none else none := by
    intro a
    rw [foldl_insert_none_lookup]
    rfl
  by_cases hemp :
      ((post.map Prod.fst).filter (fun a => decide (a ∈ verified_pools))).isEmpty
  · have hnil : (post.map Prod.fst).filter (fun a => decide (a ∈ verified_pools)) = [] :=
      List.isEmpty_iff.mp hemp
    refine ⟨[], ?_, ?_, ?_⟩
    · simp only [get_touched_pools, hnil, List.foldl_nil, List.isEmpty_nil, if_true]
    · intro a
      constructor
      · intro h
        exact absurd h (by simp [lookupA])
      · intro h
        have := (htmem a).mpr h
        rw [hnil] at this
        exact absurd this (List.not_mem_nil a)
    · intro pool hp1 hp2
      have := (htmem pool).mpr ⟨hp1, hp2⟩
      rw [hnil] at this
      exact absurd this (List.not_mem_nil pool)
  · obtain ⟨m2, hrun, hchar⟩ :=
      safe_token_loop_lookup hash pre post balance_slots
        ((post.map Prod.fst).filter (fun a => decide (a ∈ verified_pools)))
        safe_tokens_list
        (((post.map Prod.fst).filter (fun a => decide (a ∈ verified_pools))).foldl
          (fun m p => insertA m p none) ([] : List (Nat × Option Nat)))
        hSlots hPost
    refine ⟨m2, ?_, ?_, ?_⟩
    · simp only [get_touched_pools, hemp, if_false]
      exact hrun
    · intro a
      by_cases hat : a ∈ (post.map Prod.fst).filter (fun a => decide (a ∈ verified_pools))
      · constructor
        · intro _
          exact (htmem a).mp hat
        · intro _
          by_cases hex : ∃ tok ∈ safe_tokens_list,
              sandwichable_cond hash balance_slots pre post tok.address a
          · obtain ⟨S, h1, _, _⟩ := (hchar a).1 hex hat
            simp [h1]
          · have h1 := (hchar a).2 (Or.inl fun t ht hc => hex ⟨t, ht, hc⟩)
            rw [h1, hm0 a, if_pos hat]
            rfl
      · constructor
        · intro h
          have h1 := (hchar a).2 (Or.inr hat)
          rw [h1, hm0 a, if_neg hat] at h
          exact absurd h (by simp)
        · intro h
          exact absurd ((htmem a).mpr h) hat
    · intro pool hp1 hp2
      have hmem : pool ∈ (post.map Prod.fst).filter (fun a => decide (a ∈ verified_pools)) :=
        (htmem pool).mpr ⟨hp1, hp2⟩
      constructor
      · constructor
        · rintro ⟨S, h1, ⟨t, ht, hts⟩, h3⟩
          exact ⟨t, ht, by rw [hts]; exact h3⟩
        · intro hex
          exact (hchar pool).1 hex hmem
      · constructor
        · intro hsn
          intro hex
          obtain ⟨S, h1, _, _⟩ := (hchar pool).1 hex hmem
          rw [h1] at hsn
          exact absurd (Option.some.injEq .. ▸ hsn) (by simp)
        · intro hnex
          have h1 := (hchar pool).2 (Or.inl fun t ht hc => hnex ⟨t, ht, hc⟩)
          rw [h1, hm0 pool, if_pos hmem]

/-- Safe token for the C2 witness. -/
def wit2_stok : Token :=
  ⟨10, none, "S", "S", 18⟩

/-- Pre map of the C2 witness diff: the safe token's balance cell of pool
55 (key `1000·55 + 4`) held 100. -/
def wit2_pre : List (Nat × AccountState) :=
  [(10, ⟨some [(55004, 100)]⟩)]

/-- Post map of the C2 witness diff: pools 55 and 56 touched, the safe
token's balance of pool 55 rose to 150. -/
def wit2_post : List (Nat × AccountState) :=
  [(55, ⟨some []⟩), (56, ⟨none⟩), (10, ⟨some [(55004, 150)]⟩)]

/-- C2 witness: pools 55 and 56 are verified and touched; the victim adds
safe token 10 to pool 55, so 55 maps to `Some 10`, 56 maps to `None`, and
the non-pool account 10 is not a key. -/
theorem get_touched_pools_witness :
    ∃ m, get_touched_pools (fun a s => 1000 * a + s) [55, 56] [wit2_stok] [(10, 4)]
        wit2_pre wit2_post = some m ∧
      lookupA m 55 = some (some 10) ∧ lookupA m 56 = some none ∧ lookupA m 10 = none := by
  obtain ⟨m, hrun, hkeys, hvals⟩ :=
    get_touched_pools_characterisation (fun a s => 1000 * a + s) [55, 56] [wit2_stok]
      [(10, 4)] wit2_pre wit2_post
      (by
        intro tok ht ps pstor h1 h2
        simp only [List.mem_singleton] at ht
        subst ht
        decide)
      (by
        intro tok ht ps pstor key val h1 h2 h3
        simp only [List.mem_singleton] at ht
        subst ht
        have h1x : some (⟨some [(55004, 100)]⟩ : AccountState) = some ps := h1
        injection h1x with h1y
        subst h1y
        have h2x : some [(55004, 100)] = some pstor := h2
        injection h2x with h2y
        subst h2y
        by_cases hk : (55004 : Nat) = key
        · subst hk
          exact ⟨⟨some [(55004, 150)]⟩, [(55004, 150)], 150, rfl, rfl, rfl⟩
        · simp only [lookupA, if_neg hk] at h3
          exact absurd h3 (by simp))
  have hcond : sandwichable_cond (fun a s => 1000 * a + s) [(10, 4)] wit2_pre wit2_post
      wit2_stok.address 55 :=
    ⟨⟨some [(55004, 100)]⟩, [(55004, 100)], 4, 100, rfl, rfl, rfl, rfl,
      ⟨some [(55004, 150)]⟩, [(55004, 150)], 150, rfl, rfl, rfl, by decide⟩
  refine ⟨m, hrun, ?_, ?_, ?_⟩
  · obtain ⟨S, hm55, ⟨t, ht, hts⟩, -⟩ := ((hvals 55 (by decide) (by decide)).1).mpr
      ⟨wit2_stok, List.mem_singleton.mpr rfl, hcond⟩
    simp only [List.mem_singleton] at ht
    subst ht
    have hs10 : S = 10 := hts.symm.trans rfl
    rw [hs10] at hm55
    exact hm55
  · refine ((hvals 56 (by decide) (by decide)).2).mpr ?_
    rintro ⟨t, ht, hc⟩
    simp only [List.mem_singleton] at ht
    subst ht
    obtain ⟨ps, pstor, slot, pb, h1, h2, h3, h4, -⟩ := hc
    have h1x : some (⟨some [(55004, 100)]⟩ : AccountState) = some ps := h1
    injection h1x with h1y
    subst h1y
    have h2x : some [(55004, 100)] = some pstor := h2
    injection h2x with h2y
    subst h2y
    have h3x : some 4 = some slot := h3
    injection h3x with h3y
    subst h3y
    have h4x : (none : Option Nat) = some pb := h4
    exact absurd h4x (by simp)
  · rcases hl : lookupA m 10 with _ | v
    · rfl
    · exfalso
      have hk := (hkeys 10).mp (by rw [hl]; rfl)
      exact absurd hk.2 (by decide)

end EvmSimulation
